import Mathlib

/-!
# Verification of the beads_viewer rendering layer

Shallow embedding of the beads_viewer Go sources:
* `pkg/ui` graph view (`GraphModel`, `smartTruncateID`, navigation, `View`)
* `pkg/ui/delegate.go` row renderer (`IssueDelegate.Render`)

Go strings are byte sequences; we model them as `List Nat` (each entry a byte
value). Go `len` on a string is its byte length, i.e. `List.length` here.
Go `[]rune(s)` is UTF-8 decoding, modelled by `utf8Decode` below, which follows
Go's `unicode/utf8` package: invalid sequences decode to U+FFFD consuming one
byte.  Go `int` is modelled as `Int`.
-/

namespace BeadsViewer

/-- A Go string: a sequence of bytes. -/
abbrev GoStr := List Nat

/-- UTF-8 encoding of one Unicode scalar value (as in Go's `utf8.EncodeRune`
for valid runes). -/
def utf8EncodeChar (c : Nat) : List Nat :=
  if c < 0x80 then [c]
  else if c < 0x800 then [0xC0 + c / 0x40, 0x80 + c % 0x40]
  else if c < 0x10000 then
    [0xE0 + c / 0x1000, 0x80 + c / 0x40 % 0x40, 0x80 + c % 0x40]
  else
    [0xF0 + c / 0x40000, 0x80 + c / 0x1000 % 0x40, 0x80 + c / 0x40 % 0x40,
      0x80 + c % 0x40]

/-- Go `string(runes)` : encode a list of runes back to bytes. -/
def utf8Encode (rs : List Nat) : List Nat := (rs.map utf8EncodeChar).flatten

/-- The bytes of a Lean string literal, used to transcribe Go string literals. -/
def strBytes (s : String) : GoStr := (s.data.map (fun c => utf8EncodeChar c.toNat)).flatten

/-- Lower bound of the first continuation byte admitted after lead byte `b0`
(Go `utf8.acceptRanges`). -/
def contLo (b0 : Nat) : Nat := if b0 = 0xE0 then 0xA0 else if b0 = 0xF0 then 0x90 else 0x80

/-- Upper bound of the first continuation byte admitted after lead byte `b0`
(Go `utf8.acceptRanges`). -/
def contHi (b0 : Nat) : Nat := if b0 = 0xED then 0x9F else if b0 = 0xF4 then 0x8F else 0xBF

/-- One step of Go UTF-8 decoding (`utf8.DecodeRuneInString`): given the lead
byte and the remaining bytes, return the decoded rune together with how many
bytes beyond the lead byte were consumed.  Any invalid sequence yields
U+FFFD and consumes only the lead byte, as in Go. -/
def utf8DecodeStep (b0 : Nat) (t : List Nat) : Nat × Nat :=
  if b0 < 0x80 then (b0, 0)
  else if b0 < 0xC2 ∨ 0xF4 < b0 then (0xFFFD, 0)
  else if b0 ≤ 0xDF then
    match t with
    | b1 :: _ =>
        if contLo b0 ≤ b1 ∧ b1 ≤ contHi b0 then
          ((b0 - 0xC0) * 0x40 + (b1 - 0x80), 1)
        else (0xFFFD, 0)
    | [] => (0xFFFD, 0)
  else if b0 ≤ 0xEF then
    match t with
    | b1 :: b2 :: _ =>
        if (contLo b0 ≤ b1 ∧ b1 ≤ contHi b0) ∧ (0x80 ≤ b2 ∧ b2 ≤ 0xBF) then
          ((b0 - 0xE0) * 0x1000 + (b1 - 0x80) * 0x40 + (b2 - 0x80), 2)
        else (0xFFFD, 0)
    | _ => (0xFFFD, 0)
  else
    match t with
    | b1 :: b2 :: b3 :: _ =>
        if (contLo b0 ≤ b1 ∧ b1 ≤ contHi b0) ∧ (0x80 ≤ b2 ∧ b2 ≤ 0xBF) ∧
            (0x80 ≤ b3 ∧ b3 ≤ 0xBF) then
          ((b0 - 0xF0) * 0x40000 + (b1 - 0x80) * 0x1000 + (b2 - 0x80) * 0x40 +
            (b3 - 0x80), 3)
        else (0xFFFD, 0)
    | _ => (0xFFFD, 0)

/-- Fuel-indexed UTF-8 decoding loop; with fuel at least the length of the
input it decodes the whole input. -/
def utf8DecodeF : Nat → List Nat → List Nat
  | _, [] => []
  | 0, _ :: _ => []
  | fuel + 1, b0 :: t =>
      let s := utf8DecodeStep b0 t
      s.1 :: utf8DecodeF fuel (t.drop s.2)

/-- Go `[]rune(s)`: UTF-8 decoding of a byte string into runes. -/
def utf8Decode (bs : List Nat) : List Nat := utf8DecodeF bs.length bs

theorem utf8DecodeF_congr (f₁ : Nat) : ∀ (f₂ : Nat) (bs : List Nat),
    bs.length ≤ f₁ → bs.length ≤ f₂ → utf8DecodeF f₁ bs = utf8DecodeF f₂ bs := by
  induction f₁ with
  | zero =>
    intro f₂ bs h1 _
    have hbs : bs = [] := List.eq_nil_of_length_eq_zero (Nat.le_zero.mp h1)
    subst hbs
    cases f₂ <;> rfl
  | succ f ih =>
    intro f₂ bs h1 h2
    match bs, f₂ with
    | [], f₂ => cases f₂ <;> rfl
    | b0 :: t, 0 => simp at h2
    | b0 :: t, f₂ + 1 =>
      simp only [utf8DecodeF]
      have hlen : (t.drop (utf8DecodeStep b0 t).2).length ≤ t.length := by
        simp [List.length_drop]
      simp only [List.length_cons] at h1 h2
      rw [ih f₂ _ (by omega) (by omega)]

theorem utf8DecodeF_length_le : ∀ (f : Nat) (bs : List Nat),
    (utf8DecodeF f bs).length ≤ bs.length := by
  intro f
  induction f with
  | zero => intro bs; cases bs <;> simp [utf8DecodeF]
  | succ f ih =>
    intro bs
    cases bs with
    | nil => simp [utf8DecodeF]
    | cons b0 t =>
      simp only [utf8DecodeF, List.length_cons]
      have h1 := ih (t.drop (utf8DecodeStep b0 t).2)
      have h2 : (t.drop (utf8DecodeStep b0 t).2).length ≤ t.length := by
        simp [List.length_drop]
      omega

theorem utf8Decode_length_le (bs : List Nat) : (utf8Decode bs).length ≤ bs.length :=
  utf8DecodeF_length_le _ _

/-- A Unicode scalar value: in range and not a surrogate. -/
def ValidRune (c : Nat) : Prop := c < 0xD800 ∨ (0xE000 ≤ c ∧ c < 0x110000)

theorem utf8DecodeStep_valid (b0 : Nat) (t : List Nat) :
    ValidRune (utf8DecodeStep b0 t).1 := by
  unfold utf8DecodeStep ValidRune
  repeat' split
  all_goals simp only [contLo, contHi] at *
  all_goals try (split_ifs at * <;> omega)
  all_goals omega

theorem utf8DecodeF_valid : ∀ (f : Nat) (bs : List Nat), ∀ c ∈ utf8DecodeF f bs, ValidRune c := by
  intro f
  induction f with
  | zero => intro bs c hc; cases bs <;> simp [utf8DecodeF] at hc
  | succ f ih =>
    intro bs c hc
    cases bs with
    | nil => simp [utf8DecodeF] at hc
    | cons b0 t =>
      simp only [utf8DecodeF, List.mem_cons] at hc
      rcases hc with h | h
      · subst h; exact utf8DecodeStep_valid b0 t
      · exact ih _ _ h

theorem utf8Decode_valid (bs : List Nat) : ∀ c ∈ utf8Decode bs, ValidRune c :=
  utf8DecodeF_valid _ _

theorem utf8DecodeF_step (f : Nat) (b0 : Nat) (t : List Nat) :
    utf8DecodeF (f + 1) (b0 :: t) =
      (utf8DecodeStep b0 t).1 :: utf8DecodeF f (t.drop (utf8DecodeStep b0 t).2) := rfl

theorem utf8Encode_cons (c : Nat) (rs : List Nat) :
    utf8Encode (c :: rs) = utf8EncodeChar c ++ utf8Encode rs := rfl

/-- Decoding the encoding of one valid rune in front of arbitrary bytes
recovers the rune. -/
theorem utf8Decode_encodeChar_append (c : Nat) (hc : ValidRune c) (rest : List Nat) :
    utf8Decode (utf8EncodeChar c ++ rest) = c :: utf8Decode rest := by
  unfold ValidRune at hc
  rcases Nat.lt_or_ge c 0x80 with h1 | h1
  · have henc : utf8EncodeChar c = [c] := by unfold utf8EncodeChar; rw [if_pos h1]
    have hstep : utf8DecodeStep c rest = (c, 0) := by
      unfold utf8DecodeStep; rw [if_pos h1]
    rw [henc]
    show utf8DecodeF (c :: rest).length (c :: rest) = c :: utf8Decode rest
    rw [List.length_cons, utf8DecodeF_step, hstep]
    simp [utf8Decode]
  · rcases Nat.lt_or_ge c 0x800 with h2 | h2
    · have henc : utf8EncodeChar c = [0xC0 + c / 0x40, 0x80 + c % 0x40] := by
        unfold utf8EncodeChar; rw [if_neg (by omega), if_pos h2]
      have hstep : utf8DecodeStep (0xC0 + c / 0x40) ((0x80 + c % 0x40) :: rest) = (c, 1) := by
        simp only [utf8DecodeStep]
        rw [if_neg (by omega), if_neg (by omega), if_pos (by omega)]
        rw [if_pos (by simp only [contLo, contHi]; split_ifs <;> omega)]
        simp only [Prod.mk.injEq]
        exact ⟨by omega, trivial⟩
      rw [henc]
      show utf8DecodeF ((0xC0 + c / 0x40) :: (0x80 + c % 0x40) :: rest).length
          ((0xC0 + c / 0x40) :: (0x80 + c % 0x40) :: rest) = c :: utf8Decode rest
      rw [List.length_cons, List.length_cons, utf8DecodeF_step, hstep]
      simp only [List.drop_succ_cons, List.drop_zero]
      rw [utf8DecodeF_congr (rest.length + 1) rest.length rest (by omega) (by omega)]
      rfl
    · rcases Nat.lt_or_ge c 0x10000 with h3 | h3
      · have henc : utf8EncodeChar c =
            [0xE0 + c / 0x1000, 0x80 + c / 0x40 % 0x40, 0x80 + c % 0x40] := by
          unfold utf8EncodeChar; rw [if_neg (by omega), if_neg (by omega), if_pos h3]
        have hstep : utf8DecodeStep (0xE0 + c / 0x1000)
            ((0x80 + c / 0x40 % 0x40) :: (0x80 + c % 0x40) :: rest) = (c, 2) := by
          simp only [utf8DecodeStep]
          rw [if_neg (by omega), if_neg (by omega), if_neg (by omega), if_pos (by omega)]
          rw [if_pos (by simp only [contLo, contHi]; split_ifs <;> omega)]
          simp only [Prod.mk.injEq]
          exact ⟨by omega, trivial⟩
        rw [henc]
        show utf8DecodeF
            ((0xE0 + c / 0x1000) :: (0x80 + c / 0x40 % 0x40) :: (0x80 + c % 0x40) :: rest).length
            ((0xE0 + c / 0x1000) :: (0x80 + c / 0x40 % 0x40) :: (0x80 + c % 0x40) :: rest) =
            c :: utf8Decode rest
        rw [List.length_cons, List.length_cons, List.length_cons, utf8DecodeF_step, hstep]
        simp only [List.drop_succ_cons, List.drop_zero]
        rw [utf8DecodeF_congr (rest.length + 1 + 1) rest.length rest (by omega) (by omega)]
        rfl
      · have henc : utf8EncodeChar c =
            [0xF0 + c / 0x40000, 0x80 + c / 0x1000 % 0x40, 0x80 + c / 0x40 % 0x40,
              0x80 + c % 0x40] := by
          unfold utf8EncodeChar
          rw [if_neg (by omega), if_neg (by omega), if_neg (by omega)]
        have hstep : utf8DecodeStep (0xF0 + c / 0x40000)
            ((0x80 + c / 0x1000 % 0x40) :: (0x80 + c / 0x40 % 0x40) ::
              (0x80 + c % 0x40) :: rest) = (c, 3) := by
          simp only [utf8DecodeStep]
          rw [if_neg (by omega), if_neg (by omega), if_neg (by omega), if_neg (by omega)]
          rw [if_pos (by simp only [contLo, contHi]; split_ifs <;> omega)]
          simp only [Prod.mk.injEq]
          exact ⟨by omega, trivial⟩
        rw [henc]
        show utf8DecodeF
            ((0xF0 + c / 0x40000) :: (0x80 + c / 0x1000 % 0x40) :: (0x80 + c / 0x40 % 0x40) ::
              (0x80 + c % 0x40) :: rest).length
            ((0xF0 + c / 0x40000) :: (0x80 + c / 0x1000 % 0x40) :: (0x80 + c / 0x40 % 0x40) ::
              (0x80 + c % 0x40) :: rest) = c :: utf8Decode rest
        rw [List.length_cons, List.length_cons, List.length_cons, List.length_cons,
          utf8DecodeF_step, hstep]
        simp only [List.drop_succ_cons, List.drop_zero]
        rw [utf8DecodeF_congr (rest.length + 1 + 1 + 1) rest.length rest (by omega) (by omega)]
        rfl

/-- Decoding an encoded list of valid runes followed by arbitrary bytes. -/
theorem utf8Decode_encode_append (rs : List Nat) (h : ∀ c ∈ rs, ValidRune c)
    (rest : List Nat) :
    utf8Decode (utf8Encode rs ++ rest) = rs ++ utf8Decode rest := by
  induction rs with
  | nil => simp [utf8Encode]
  | cons c rs ih =>
    have hc : ValidRune c := h c (by simp)
    have hrs : ∀ x ∈ rs, ValidRune x := fun x hx => h x (by simp [hx])
    rw [utf8Encode_cons, List.append_assoc, utf8Decode_encodeChar_append c hc, ih hrs]
    rfl

/-! ## smartTruncateID (graph view source, lines 472-514) -/

/-- The UTF-8 bytes of the ellipsis rune `…` (U+2026), as written by
`abbrev.WriteRune('…')` and by the `+ "…"` concatenations in the source. -/
def ellBytes : List Nat := [0xE2, 0x80, 0xA6]

/-- Model of `abbrev.WriteRune(rune(part[0]))`: Go converts the first *byte* of the
segment to a rune and UTF-8 encodes it (1 byte if ASCII, else 2 bytes). -/
def writeRuneByte (b : Nat) : List Nat :=
  if b < 0x80 then [b] else [0xC0 + b / 0x40, 0x80 + b % 0x40]

/-- Go `strings.Split(id, "_")`: split on the underscore byte 0x5F.
The result is always non-empty. -/
def splitUnderscore : List Nat → List (List Nat)
  | [] => [[]]
  | b :: t =>
      if b = 0x5F then [] :: splitUnderscore t
      else
        match splitUnderscore t with
        | p :: ps => (b :: p) :: ps
        | [] => [[b]]

/-- The abbreviation-building loop of `smartTruncateID` (source lines 480-501):
for every part except the last, write its first byte as a rune plus `_`
(skipping empty parts); for the last part, if budget remains, append it whole
when it fits, else append its first `remaining-1` bytes plus `…`.
`acc` is the `strings.Builder` content so far; `acc.length` is `abbrev.Len()`
(Go builder length is in bytes). -/
def abbrevBuild (maxLen : Int) (acc : List Nat) : List (List Nat) → List Nat
  | [] => acc
  | [part] =>
      let remaining : Int := maxLen - acc.length
      if 0 < remaining then
        if (part.length : Int) ≤ remaining then acc ++ part
        else acc ++ part.take (remaining - 1).toNat ++ ellBytes
      else acc
  | part :: rest =>
      match part with
      | [] => abbrevBuild maxLen acc rest
      | b :: _ => abbrevBuild maxLen (acc ++ writeRuneByte b ++ [0x5F]) rest

/-- Model of `smartTruncateID(id, maxLen)` (source lines 472-514): if the byte length of
`id` is at most `maxLen`, return it unchanged; else, when the id has more than
2 underscore-separated parts, try the abbreviation (discarded when its byte
length exceeds `maxLen`); otherwise truncate to `maxLen-1` runes plus `…`
(returning `id` itself when it already has at most `maxLen-1` runes).
The rune-slice index `maxLen-1` is taken with `Int.toNat` (the corresponding
Go code would panic for `maxLen ≤ 0`, a case outside every call site). -/
def smartTruncateID (id : List Nat) (maxLen : Int) : List Nat :=
  if (id.length : Int) ≤ maxLen then id
  else
    let parts := splitUnderscore id
    let abbrevResult : Option (List Nat) :=
      if 2 < parts.length then
        let result := abbrevBuild maxLen [] parts
        if (result.length : Int) ≤ maxLen then some result else none
      else none
    match abbrevResult with
    | some r => r
    | none =>
        let runes := utf8Decode id
        if (maxLen - 1) < (runes.length : Int) then
          utf8Encode (runes.take (maxLen - 1).toNat) ++ ellBytes
        else id

theorem utf8Decode_ellBytes : utf8Decode ellBytes = [0x2026] := by decide

/-- C1: for every id and every `n ≥ 1`, the rendered (rune) length of
`smartTruncateID id n` is at most `n`; and whenever the (byte) length of `id`
is at most `n` — in particular for the empty string — the id is returned
unchanged. -/
theorem smartTruncateID_correct (id : List Nat) (n : Int) (hn : 1 ≤ n) :
    ((utf8Decode (smartTruncateID id n)).length : Int) ≤ n ∧
    ((id.length : Int) ≤ n → smartTruncateID id n = id) := by
  constructor
  · unfold smartTruncateID
    by_cases h1 : (id.length : Int) ≤ n
    · rw [if_pos h1]
      have := utf8Decode_length_le id
      omega
    · rw [if_neg h1]
      simp only
      split
      · rename_i r hr
        split at hr
        · rename_i hlen
          split at hr
          · rename_i hfits
            cases hr
            have := utf8Decode_length_le (abbrevBuild n [] (splitUnderscore id))
            omega
          · cases hr
        · cases hr
      · split
        · rename_i hlong
          rw [utf8Decode_encode_append _
            (fun c hc => utf8Decode_valid id c (List.mem_of_mem_take hc)) ellBytes]
          rw [utf8Decode_ellBytes]
          simp only [List.length_append, List.length_take, List.length_cons,
            List.length_nil]
          have htn : ((n - 1).toNat : Int) = n - 1 := Int.toNat_of_nonneg (by omega)
          have : min (n - 1).toNat (utf8Decode id).length ≤ (n - 1).toNat :=
            Nat.min_le_left _ _
          omega
        · rename_i hshort
          omega
  · intro h
    unfold smartTruncateID
    rw [if_pos h]

/-- Witness for C1 at the concrete input from the specification's examples. -/
theorem smartTruncateID_correct_witness :
    (1 : Int) ≤ 10 ∧
    (((utf8Decode (smartTruncateID (strBytes "proj_feature_auth_login") 10)).length : Int) ≤ 10 ∧
      (((strBytes "proj_feature_auth_login").length : Int) ≤ 10 →
        smartTruncateID (strBytes "proj_feature_auth_login") 10 =
          strBytes "proj_feature_auth_login")) :=
  ⟨by norm_num,
    smartTruncateID_correct (strBytes "proj_feature_auth_login") 10 (by norm_num)⟩

/-! ## Issue model

The `pkg/model` and `pkg/analysis` packages are external collaborators whose
sources are not part of this repository's core; they are modelled from the
spec's data-model section. -/

/-- Modelled from the spec: dependency-edge kinds (`pkg/model`).  Only
`blocks` and `parentChild` mean "must-complete-before" and build the graph;
other kinds exist and are ignored. -/
inductive DepType
  | blocks
  | parentChild
  | related
  | otherKind
deriving DecidableEq

/-- Modelled from the spec: a typed dependency edge (`pkg/model`): target
issue ID plus relation kind (`dep.DependsOnID`, `dep.Type`). -/
structure Dep where
  dependsOnID : GoStr
  depType : DepType
deriving DecidableEq

/-- Modelled from the spec: issue status enum (`pkg/model`).  `opened` stands
for Go `StatusOpen` (`open` is a Lean keyword). -/
inductive Status
  | opened
  | inProgress
  | blocked
  | closed
  | otherStatus
deriving DecidableEq

/-- Modelled from the spec: issue type enum (`pkg/model`). -/
inductive IssueType
  | bug
  | feature
  | task
  | epic
  | chore
  | otherType
deriving DecidableEq

/-- Modelled from the spec: an issue as consumed read-only by this repository
(`pkg/model`): unique string ID, title, type, priority, status, assignee,
creation/update instants (abstract), comment list (only its length is
consumed, kept as a count) and dependency edges. -/
structure Issue where
  id : GoStr
  title : GoStr
  issueType : IssueType
  priority : Int
  status : Status
  assignee : GoStr
  createdAt : Nat
  updatedAt : Nat
  commentCount : Nat
  dependencies : List Dep
deriving DecidableEq

/-- Modelled from the spec: per-issue scalar scores (`pkg/analysis`).  A Go
`map[string]float64` becomes `GoStr → Option ℚ` (scores modelled as
rationals); plain map reads default to 0 via `scoreD`. -/
structure GraphStats where
  pageRank : GoStr → Option ℚ
  criticalPathScore : GoStr → Option ℚ
  betweenness : GoStr → Option ℚ

/-- Modelled from the spec: the insights object (`pkg/analysis`) with its
possibly-nil `Stats` field. -/
structure Insights where
  stats : Option GraphStats

/-- Go map read `m[id]` (missing key yields the zero value 0). -/
def scoreD (m : GoStr → Option ℚ) (id : GoStr) : ℚ := (m id).getD 0

/-- Go map assignment `m[k] = v` for maps modelled as functions. -/
def updMap {α : Type} (m : GoStr → α) (k : GoStr) (v : α) : GoStr → α :=
  fun k' => if k' = k then v else m k'

/-! ## Theme and styles (lipgloss, and the theme file of pkg/ui) -/

/-- Terminal colors are opaque tokens. -/
abbrev Color := Nat

/-- A lipgloss alignment position. -/
inductive Pos
  | top
  | bottom
  | posLeft
  | posRight
  | center
deriving DecidableEq

/-- A lipgloss style: the subset of properties this repository sets.
`Render` applied to a style is modelled as a `Rend.styled` node. -/
structure Style where
  bold : Bool := false
  italic : Bool := false
  fg : Option Color := none
  bg : Option Color := none
  width : Option Int := none
  height : Option Int := none
  maxWidth : Option Int := none
  alignH : Option Pos := none
  alignV : Option Pos := none
  paddingLeft : Int := 0
  paddingRight : Int := 0
  borderLeft : Bool := false
deriving DecidableEq

def Style.Bold (s : Style) (b : Bool) : Style := { s with bold := b }

def Style.Italic (s : Style) (b : Bool) : Style := { s with italic := b }

def Style.Foreground (s : Style) (c : Color) : Style := { s with fg := some c }

def Style.Background (s : Style) (c : Color) : Style := { s with bg := some c }

def Style.Width (s : Style) (w : Int) : Style := { s with width := some w }

def Style.Height (s : Style) (h : Int) : Style := { s with height := some h }

def Style.MaxWidth (s : Style) (w : Int) : Style := { s with maxWidth := some w }

def Style.Align2 (s : Style) (h v : Pos) : Style :=
  { s with alignH := some h, alignV := some v }

def Style.Align1 (s : Style) (h : Pos) : Style := { s with alignH := some h }

def Style.PaddingLeft (s : Style) (n : Int) : Style := { s with paddingLeft := n }

def Style.PaddingRight (s : Style) (n : Int) : Style := { s with paddingRight := n }

/-- Model of `Border(lipgloss.HiddenBorder(), false, false, false, true)`. -/
def Style.BorderLeftOnly (s : Style) : Style := { s with borderLeft := true }

def Style.GetForeground (s : Style) : Color := s.fg.getD 0

/-- Modelled from the spec: the theme subsystem (theme file of `pkg/ui`, not
under src/) — a lookup capability supplying colors, styles and glyphs.  Field
names follow the Go field/method names used by the sources. -/
structure Theme where
  Primary : Color
  Secondary : Color
  Feature : Color
  Highlight : Color
  Subtext : Color
  Open : Color
  InProgress : Color
  Blocked : Color
  Closed : Color
  Base : Style
  Selected : Style
  GetTypeIcon : GoStr → GoStr × Color
  GetStatusColor : GoStr → Color

/-- Rendered text: the tree of styled strings a render call returns.
`style.Render(s)` on a plain string is `Rend.styled`; wrapping an
already-styled row is `Rend.wrap`; `strings.Join(lines, "\n")` is
`Rend.joinLines`; `lipgloss.JoinHorizontal` is `Rend.joinH`; Go string
concatenation of already-styled pieces is `Rend.cat`.  Two equal trees
denote equal terminal strings. -/
inductive Rend
  | text (s : GoStr)
  | styled (st : Style) (s : GoStr)
  | wrap (st : Style) (r : Rend)
  | joinLines (rs : List Rend)
  | joinH (pos : Pos) (rs : List Rend)
  | cat (rs : List Rend)

/-! ## Go string comparison and the rebuild orderings -/

/-- Go byte-wise string comparison `a < b`. -/
def goStrLt : GoStr → GoStr → Bool
  | [], [] => false
  | [], _ :: _ => true
  | _ :: _, [] => false
  | a :: as, b :: bs => if a < b then true else if b < a then false else goStrLt as bs

theorem goStrLt_asymm : ∀ a b : GoStr, goStrLt a b = true → goStrLt b a = true → False := by
  intro a
  induction a with
  | nil => intro b h1 h2; cases b <;> simp [goStrLt] at h1 h2
  | cons x as ih =>
    intro b h1 h2
    cases b with
    | nil => simp [goStrLt] at h1
    | cons y bs =>
      simp only [goStrLt] at h1 h2
      split_ifs at h1 h2 <;> try omega
      exact ih bs h1 h2

theorem goStrLt_trichotomy : ∀ a b : GoStr, goStrLt a b = true ∨ goStrLt b a = true ∨ a = b := by
  intro a
  induction a with
  | nil => intro b; cases b <;> simp [goStrLt]
  | cons x as ih =>
    intro b
    cases b with
    | nil => simp [goStrLt]
    | cons y bs =>
      simp only [goStrLt]
      rcases Nat.lt_trichotomy x y with h | h | h
      · left; simp [h]
      · subst h
        rcases ih bs with h' | h' | h'
        · left; simp [h']
        · right; left; simp [h']
        · right; right; simp [h']
      · right; left; simp [h, Nat.lt_asymm h]

theorem goStrLt_trans : ∀ a b c : GoStr,
    goStrLt a b = true → goStrLt b c = true → goStrLt a c = true := by
  intro a
  induction a with
  | nil =>
    intro b c h1 h2
    cases b with
    | nil => simp [goStrLt] at h1
    | cons y bs => cases c with
      | nil => simp [goStrLt] at h2
      | cons z cs => simp [goStrLt]
  | cons x as ih =>
    intro b c h1 h2
    cases b with
    | nil => simp [goStrLt] at h1
    | cons y bs =>
      cases c with
      | nil => simp [goStrLt] at h2
      | cons z cs =>
        simp only [goStrLt] at h1 h2 ⊢
        split_ifs at h1 h2 ⊢ <;> try omega
        all_goals try rfl
        all_goals exact ih bs cs h1 h2

/-- The comparator of `sort.Slice` in `rebuildGraph` with insights present
(source lines 77-84), read as the non-strict order "sorts no later than":
`a` precedes `b` when its critical-path score is strictly higher, or the
scores are equal and `a` is lexically no greater than `b`.  This is exactly
the negation of the Go `less(b, a)`. -/
def cpOrder (st : GraphStats) (a b : GoStr) : Prop :=
  scoreD st.criticalPathScore b < scoreD st.criticalPathScore a ∨
    (scoreD st.criticalPathScore a = scoreD st.criticalPathScore b ∧ goStrLt b a = false)

/-- Model of `sort.Strings` ascending lexical order, as "sorts no later than". -/
def lexOrder (a b : GoStr) : Prop := goStrLt b a = false

instance (st : GraphStats) : DecidableRel (cpOrder st) := fun _ _ => by
  unfold cpOrder; infer_instance

instance : DecidableRel lexOrder := fun _ _ => by
  unfold lexOrder; infer_instance

theorem goStrLt_total_of_ne (a b : GoStr) :
    goStrLt a b = false → goStrLt b a = false → a = b := by
  intro h1 h2
  rcases goStrLt_trichotomy a b with h | h | h
  · rw [h1] at h; cases h
  · rw [h2] at h; cases h
  · exact h

instance : IsTotal GoStr lexOrder := by
  constructor
  intro a b
  unfold lexOrder
  rcases goStrLt_trichotomy a b with h | h | h
  · left
    cases hba : goStrLt b a
    · rfl
    · exact absurd (goStrLt_asymm a b h hba) (fun f => f)
  · right
    cases hab : goStrLt a b
    · rfl
    · exact absurd (goStrLt_asymm a b hab h) (fun f => f)
  · subst h
    left
    cases haa : goStrLt a a
    · rfl
    · exact absurd (goStrLt_asymm a a haa haa) (fun f => f)

instance : IsTrans GoStr lexOrder := by
  constructor
  intro a b c h1 h2
  unfold lexOrder at *
  cases hca : goStrLt c a
  · rfl
  · rcases goStrLt_trichotomy a b with h | h | h
    · have := goStrLt_trans c a b hca h; rw [h2] at this; cases this
    · rw [h1] at h; cases h
    · subst h; rw [h2] at hca; cases hca

instance : IsAntisymm GoStr lexOrder := by
  constructor
  intro a b h1 h2
  exact goStrLt_total_of_ne a b h2 h1

instance (st : GraphStats) : IsTotal GoStr (cpOrder st) := by
  constructor
  intro a b
  unfold cpOrder
  rcases lt_trichotomy (scoreD st.criticalPathScore a) (scoreD st.criticalPathScore b)
    with h | h | h
  · right; left; exact h
  · rcases (IsTotal.total (r := lexOrder) a b) with h' | h'
    · left; right; exact ⟨h, h'⟩
    · right; right; exact ⟨h.symm, h'⟩
  · left; left; exact h

instance (st : GraphStats) : IsTrans GoStr (cpOrder st) := by
  constructor
  intro a b c h1 h2
  unfold cpOrder at *
  rcases h1 with h1 | ⟨h1e, h1l⟩ <;> rcases h2 with h2 | ⟨h2e, h2l⟩
  · left; exact lt_trans h2 h1
  · left; rw [← h2e]; exact h1
  · left; rw [h1e]; exact h2
  · right
    exact ⟨h1e.trans h2e, IsTrans.trans (r := lexOrder) a b c h1l h2l⟩

instance (st : GraphStats) : IsAntisymm GoStr (cpOrder st) := by
  constructor
  intro a b h1 h2
  unfold cpOrder at *
  rcases h1 with h1 | ⟨h1e, h1l⟩ <;> rcases h2 with h2 | ⟨h2e, h2l⟩
  · exact absurd (lt_trans h1 h2) (lt_irrefl _)
  · rw [h2e] at h1; exact absurd h1 (lt_irrefl _)
  · rw [h1e] at h2; exact absurd h2 (lt_irrefl _)
  · exact goStrLt_total_of_ne a b h2l h1l

/-! ## The graph view model (source lines 14-145) -/

/-- The dependency-graph view state (source lines 14-31). -/
structure GraphModel where
  issues : List Issue
  issueMap : GoStr → Option Issue
  insights : Option Insights
  selectedIdx : Int
  scrollOffset : Int
  width : Int
  height : Int
  theme : Theme
  blockers : GoStr → List GoStr
  dependents : GoStr → List GoStr
  sortedIDs : List GoStr

/-- The pair of adjacency maps built by the relationship loop. -/
structure Adj where
  bl : GoStr → List GoStr
  dp : GoStr → List GoStr

/-- Process one dependency edge of the issue with ID `iid`
(source lines 65-72). -/
def addDep (iid : GoStr) (p : Adj) (d : Dep) : Adj :=
  if d.depType = DepType.blocks ∨ d.depType = DepType.parentChild then
    { bl := updMap p.bl iid (p.bl iid ++ [d.dependsOnID]),
      dp := updMap p.dp d.dependsOnID (p.dp d.dependsOnID ++ [iid]) }
  else p

/-- Process all dependency edges of one issue (source lines 64-73). -/
def addIssueEdges (p : Adj) (i : Issue) : Adj := i.dependencies.foldl (addDep i.id) p

/-- The sorting pass of `rebuildGraph` (source lines 75-87): the insights
comparator when `g.insights != nil && g.insights.Stats != nil`, else
`sort.Strings`.  Go's `sort.Slice` is modelled by `insertionSort`; C5 proves
the comparator admits a unique sorted permutation, so the choice of sorting
algorithm is immaterial. -/
def sortIDs : Option Insights → List GoStr → List GoStr
  | some ⟨some st⟩, ids => ids.insertionSort (cpOrder st)
  | some ⟨none⟩, ids => ids.insertionSort lexOrder
  | none, ids => ids.insertionSort lexOrder

/-- Model of `rebuildGraph` (source lines 51-92): clear and repopulate the ID lookup
and both adjacency maps, recompute `sortedIDs`, and reset the selection index
to 0 when it is at or past the end. -/
def rebuildGraph (g : GraphModel) : GraphModel :=
  let issueMap := g.issues.foldl (fun m i => updMap m i.id (some i)) (fun _ => none)
  let ids := g.issues.map Issue.id
  let adj := g.issues.foldl addIssueEdges ⟨fun _ => [], fun _ => []⟩
  let sorted := sortIDs g.insights ids
  let newIdx := if (sorted.length : Int) ≤ g.selectedIdx then 0 else g.selectedIdx
  { g with issueMap := issueMap, blockers := adj.bl, dependents := adj.dp,
           sortedIDs := sorted, selectedIdx := newIdx }

/-- Model of `NewGraphModel` (source lines 34-42); Go zero values for the remaining
fields. -/
def NewGraphModel (issues : List Issue) (insights : Option Insights) (theme : Theme) :
    GraphModel :=
  rebuildGraph
    { issues := issues, issueMap := fun _ => none, insights := insights,
      selectedIdx := 0, scrollOffset := 0, width := 0, height := 0,
      theme := theme, blockers := fun _ => [], dependents := fun _ => [],
      sortedIDs := [] }

/-- Model of `SetIssues` (source lines 45-49). -/
def GraphModel.SetIssues (g : GraphModel) (issues : List Issue)
    (insights : Option Insights) : GraphModel :=
  rebuildGraph { g with issues := issues, insights := insights }

/-- Model of `ensureVisible` (source lines 131-133): its body is empty. -/
def GraphModel.ensureVisible (g : GraphModel) : GraphModel := g

/-- Model of `MoveUp` (source lines 95-100). -/
def GraphModel.MoveUp (g : GraphModel) : GraphModel :=
  if 0 < g.selectedIdx then
    ({ g with selectedIdx := g.selectedIdx - 1 }).ensureVisible
  else g

/-- Model of `MoveDown` (source lines 102-107). -/
def GraphModel.MoveDown (g : GraphModel) : GraphModel :=
  if g.selectedIdx < (g.sortedIDs.length : Int) - 1 then
    ({ g with selectedIdx := g.selectedIdx + 1 }).ensureVisible
  else g

/-- Model of `MoveLeft` is aliased to `MoveUp` (source line 109). -/
def GraphModel.MoveLeft (g : GraphModel) : GraphModel := g.MoveUp

/-- Model of `MoveRight` is aliased to `MoveDown` (source line 110). -/
def GraphModel.MoveRight (g : GraphModel) : GraphModel := g.MoveDown

/-- Model of `PageUp` (source lines 112-118). -/
def GraphModel.PageUp (g : GraphModel) : GraphModel :=
  let idx := g.selectedIdx - 10
  ({ g with selectedIdx := if idx < 0 then 0 else idx }).ensureVisible

/-- Model of `PageDown` (source lines 120-126). -/
def GraphModel.PageDown (g : GraphModel) : GraphModel :=
  let idx := g.selectedIdx + 10
  ({ g with
      selectedIdx :=
        if (g.sortedIDs.length : Int) ≤ idx then (g.sortedIDs.length : Int) - 1
        else idx }).ensureVisible

/-- Indexing `l[i]` with a Go `int`; Go panics out of range, modelled by the
empty string (no call settled by a claim reaches that case). -/
def idxGoStr (l : List GoStr) (i : Int) : GoStr :=
  if 0 ≤ i then l.getD i.toNat [] else []

/-- Model of `SelectedIssue` (source lines 135-141). -/
def GraphModel.SelectedIssue (g : GraphModel) : Option Issue :=
  if g.sortedIDs.length = 0 then none
  else g.issueMap (idxGoStr g.sortedIDs g.selectedIdx)

/-- Model of `TotalCount` (source lines 143-145). -/
def GraphModel.TotalCount (g : GraphModel) : Nat := g.sortedIDs.length

/-- An edge contributes to the graph when its kind is `blocks` or
`parent-child` (source line 66). -/
def goodDep (d : Dep) : Prop :=
  d.depType = DepType.blocks ∨ d.depType = DepType.parentChild

theorem mem_bl_foldDeps (iid : GoStr) (deps : List Dep) (p : Adj) (A B : GoStr) :
    (B ∈ (deps.foldl (addDep iid) p).bl A) ↔
      (B ∈ p.bl A ∨ (iid = A ∧ ∃ d ∈ deps, d.dependsOnID = B ∧ goodDep d)) := by
  induction deps generalizing p with
  | nil => simp
  | cons d ds ih =>
    rw [List.foldl_cons, ih]
    unfold addDep goodDep
    split
    · rename_i hgood
      simp only [updMap]
      by_cases hA : A = iid
      · subst hA
        simp only [eq_self_iff_true, if_true, List.mem_append, List.mem_singleton,
          List.mem_cons]
        aesop
      · simp only [if_neg hA, List.mem_cons]
        aesop
    · rename_i hbad
      simp only [List.mem_cons]
      aesop

theorem mem_dp_foldDeps (iid : GoStr) (deps : List Dep) (p : Adj) (A B : GoStr) :
    (A ∈ (deps.foldl (addDep iid) p).dp B) ↔
      (A ∈ p.dp B ∨ (iid = A ∧ ∃ d ∈ deps, d.dependsOnID = B ∧ goodDep d)) := by
  induction deps generalizing p with
  | nil => simp
  | cons d ds ih =>
    rw [List.foldl_cons, ih]
    unfold addDep goodDep
    split
    · rename_i hgood
      simp only [updMap]
      by_cases hB : B = d.dependsOnID
      · subst hB
        simp only [eq_self_iff_true, if_true, List.mem_append, List.mem_singleton,
          List.mem_cons]
        aesop
      · simp only [if_neg hB, List.mem_cons]
        aesop
    · rename_i hbad
      simp only [List.mem_cons]
      aesop

/-- An edge from `A` to `B` witnessed inside an issue list. -/
def EdgeWitness (issues : List Issue) (A B : GoStr) : Prop :=
  ∃ i ∈ issues, i.id = A ∧ ∃ d ∈ i.dependencies, d.dependsOnID = B ∧ goodDep d

theorem mem_bl_foldIssues (issues : List Issue) (p : Adj) (A B : GoStr) :
    (B ∈ (issues.foldl addIssueEdges p).bl A) ↔
      (B ∈ p.bl A ∨ EdgeWitness issues A B) := by
  induction issues generalizing p with
  | nil => simp [EdgeWitness]
  | cons i is ih =>
    rw [List.foldl_cons, ih]
    unfold addIssueEdges EdgeWitness
    rw [mem_bl_foldDeps]
    simp only [List.mem_cons, EdgeWitness]
    constructor
    · rintro ((h | ⟨hid, hd⟩) | ⟨i', hi', hrest⟩)
      · exact Or.inl h
      · exact Or.inr ⟨i, Or.inl rfl, hid, hd⟩
      · exact Or.inr ⟨i', Or.inr hi', hrest⟩
    · rintro (h | ⟨i', (rfl | hi'), hrest⟩)
      · exact Or.inl (Or.inl h)
      · exact Or.inl (Or.inr hrest)
      · exact Or.inr ⟨i', hi', hrest⟩

theorem mem_dp_foldIssues (issues : List Issue) (p : Adj) (A B : GoStr) :
    (A ∈ (issues.foldl addIssueEdges p).dp B) ↔
      (A ∈ p.dp B ∨ EdgeWitness issues A B) := by
  induction issues generalizing p with
  | nil => simp [EdgeWitness]
  | cons i is ih =>
    rw [List.foldl_cons, ih]
    unfold addIssueEdges EdgeWitness
    rw [mem_dp_foldDeps]
    simp only [List.mem_cons, EdgeWitness]
    constructor
    · rintro ((h | ⟨hid, hd⟩) | ⟨i', hi', hrest⟩)
      · exact Or.inl h
      · exact Or.inr ⟨i, Or.inl rfl, hid, hd⟩
      · exact Or.inr ⟨i', Or.inr hi', hrest⟩
    · rintro (h | ⟨i', (rfl | hi'), hrest⟩)
      · exact Or.inl (Or.inl h)
      · exact Or.inl (Or.inr hrest)
      · exact Or.inr ⟨i', hi', hrest⟩

theorem rebuildGraph_blockers (g : GraphModel) :
    (rebuildGraph g).blockers = (g.issues.foldl addIssueEdges ⟨fun _ => [], fun _ => []⟩).bl :=
  rfl

theorem rebuildGraph_dependents (g : GraphModel) :
    (rebuildGraph g).dependents = (g.issues.foldl addIssueEdges ⟨fun _ => [], fun _ => []⟩).dp :=
  rfl

/-- C2: after any rebuild of the adjacency index, `B ∈ blockers[A]` iff
`A ∈ dependents[B]`, and an ID is in `blockers[A]` exactly when some issue
with ID `A` has a dependency edge of kind `blocks` or `parent-child` to it —
so only those edge kinds contribute entries. -/
theorem rebuild_adjacency_symmetric (g : GraphModel) (A B : GoStr) :
    (B ∈ (rebuildGraph g).blockers A ↔ A ∈ (rebuildGraph g).dependents B) ∧
    (B ∈ (rebuildGraph g).blockers A ↔ EdgeWitness g.issues A B) := by
  have hbl := mem_bl_foldIssues g.issues ⟨fun _ => [], fun _ => []⟩ A B
  have hdp := mem_dp_foldIssues g.issues ⟨fun _ => [], fun _ => []⟩ A B
  simp only [List.not_mem_nil, false_or] at hbl hdp
  rw [rebuildGraph_blockers, rebuildGraph_dependents, hbl, hdp]
  exact ⟨Iff.rfl, Iff.rfl⟩

theorem rebuild_sortedIDs_reduce (g : GraphModel) :
    (rebuildGraph g).sortedIDs = sortIDs g.insights (g.issues.map Issue.id) := rfl

theorem sortIDs_length (oi : Option Insights) (ids : List GoStr) :
    (sortIDs oi ids).length = ids.length := by
  rcases oi with _ | ⟨_ | st⟩ <;> simp [sortIDs]

theorem rebuild_sortedIDs_length (g : GraphModel) :
    (rebuildGraph g).sortedIDs.length = g.issues.length := by
  rw [rebuild_sortedIDs_reduce, sortIDs_length, List.length_map]

theorem rebuild_selectedIdx_reduce (g : GraphModel) :
    (rebuildGraph g).selectedIdx =
      if ((rebuildGraph g).sortedIDs.length : Int) ≤ g.selectedIdx then 0
      else g.selectedIdx := rfl

/-- C5: after every rebuild, `sortedIDs` lists all issue IDs (a permutation of
the IDs of the issue collection) in a single total order: by the
critical-path comparator (descending score, ties by ascending ID) when
insights with stats are present, else ascending lexical order; and the sorted
sequence is unique — any sorted permutation of the IDs equals it — so
rebuilding from an unchanged collection always yields the same sequence. -/
theorem rebuild_sortedIDs_ordered (g : GraphModel) :
    ((rebuildGraph g).sortedIDs).Perm (g.issues.map Issue.id) ∧
    (∀ ins st, g.insights = some ins → ins.stats = some st →
        List.Sorted (cpOrder st) (rebuildGraph g).sortedIDs ∧
        ∀ l, l.Perm (g.issues.map Issue.id) → List.Sorted (cpOrder st) l →
          l = (rebuildGraph g).sortedIDs) ∧
    ((g.insights = none ∨ ∃ ins, g.insights = some ins ∧ ins.stats = none) →
        List.Sorted lexOrder (rebuildGraph g).sortedIDs ∧
        ∀ l, l.Perm (g.issues.map Issue.id) → List.Sorted lexOrder l →
          l = (rebuildGraph g).sortedIDs) := by
  refine ⟨?_, ?_, ?_⟩
  · rw [rebuild_sortedIDs_reduce]
    rcases g.insights with _ | ⟨_ | st⟩ <;>
      (simp only [sortIDs]; exact List.perm_insertionSort _ _)
  · intro ins st hins hst
    obtain ⟨sts⟩ := ins
    have hst' : sts = some st := hst
    subst hst'
    have hred : (rebuildGraph g).sortedIDs =
        (g.issues.map Issue.id).insertionSort (cpOrder st) := by
      rw [rebuild_sortedIDs_reduce, hins]
      rfl
    rw [hred]
    refine ⟨List.sorted_insertionSort _ _, ?_⟩
    intro l hperm hsorted
    exact List.eq_of_perm_of_sorted
      (hperm.trans (List.perm_insertionSort (cpOrder st) _).symm) hsorted
      (List.sorted_insertionSort _ _)
  · intro hnone
    have hred : (rebuildGraph g).sortedIDs =
        (g.issues.map Issue.id).insertionSort lexOrder := by
      rw [rebuild_sortedIDs_reduce]
      rcases hnone with h | ⟨ins, hins, hst⟩
      · rw [h]
        rfl
      · obtain ⟨sts⟩ := ins
        have hst' : sts = none := hst
        subst hst'
        rw [hins]
        rfl
    rw [hred]
    refine ⟨List.sorted_insertionSort _ _, ?_⟩
    intro l hperm hsorted
    exact List.eq_of_perm_of_sorted
      (hperm.trans (List.perm_insertionSort lexOrder _).symm) hsorted
      (List.sorted_insertionSort _ _)

/-- C3: `MoveUp` at index 0 is a no-op, `MoveDown` at the last index is a
no-op, and from any index inside `[0, count-1]`, `PageUp` and `PageDown`
land inside `[0, count-1]`. -/
theorem navigation_bounds (g : GraphModel) :
    (g.selectedIdx = 0 → g.MoveUp = g) ∧
    (g.selectedIdx = (g.sortedIDs.length : Int) - 1 → g.MoveDown = g) ∧
    (0 ≤ g.selectedIdx → g.selectedIdx ≤ (g.sortedIDs.length : Int) - 1 →
      (0 ≤ g.PageUp.selectedIdx ∧
        g.PageUp.selectedIdx ≤ (g.sortedIDs.length : Int) - 1) ∧
      (0 ≤ g.PageDown.selectedIdx ∧
        g.PageDown.selectedIdx ≤ (g.sortedIDs.length : Int) - 1)) := by
  refine ⟨?_, ?_, ?_⟩
  · intro h
    unfold GraphModel.MoveUp
    rw [if_neg (by omega)]
  · intro h
    unfold GraphModel.MoveDown
    rw [if_neg (by omega)]
  · intro h0 h1
    unfold GraphModel.PageUp GraphModel.PageDown GraphModel.ensureVisible
    simp only
    constructor
    · constructor <;> (split <;> omega)
    · constructor <;> (split <;> omega)

/-! ### Witness fixtures: concrete instances used only by witness theorems -/

/-- A concrete theme for witness states. -/
def themeW : Theme :=
  ⟨1, 2, 3, 4, 5, 6, 7, 8, 9, {}, {}, fun _ => ([], 0), fun _ => 0⟩

/-- A concrete issue with the given ID and no edges. -/
def issueW (iid : GoStr) : Issue :=
  ⟨iid, [], IssueType.task, 1, Status.opened, [], 0, 0, 0, []⟩

/-- Concrete stats mapping every ID to a missing score. -/
def statsW : GraphStats := ⟨fun _ => none, fun _ => none, fun _ => none⟩

/-- Concrete insights carrying `statsW`. -/
def insightsW : Insights := ⟨some statsW⟩

/-- A concrete base state. -/
def gBase : GraphModel :=
  ⟨[], fun _ => none, none, 0, 0, 0, 0, themeW, fun _ => [], fun _ => [], []⟩

def gW3 : GraphModel := { gBase with sortedIDs := [[97]] }

def gW4 : GraphModel := { gBase with selectedIdx := 5 }

def gW10 : GraphModel :=
  { gBase with selectedIdx := -1, issues := [issueW [97]] }

def gW5 : GraphModel :=
  { gBase with issues := [issueW [98], issueW [97]], insights := some insightsW }

/-- Witness for C3 at a concrete one-element state with selection 0. -/
theorem navigation_bounds_witness :
    (gW3.selectedIdx = 0 ∧ gW3.MoveUp = gW3) ∧
    (gW3.selectedIdx = (gW3.sortedIDs.length : Int) - 1 ∧ gW3.MoveDown = gW3) ∧
    (0 ≤ gW3.PageUp.selectedIdx ∧
      gW3.PageUp.selectedIdx ≤ (gW3.sortedIDs.length : Int) - 1) ∧
    (0 ≤ gW3.PageDown.selectedIdx ∧
      gW3.PageDown.selectedIdx ≤ (gW3.sortedIDs.length : Int) - 1) :=
  ⟨⟨rfl, (navigation_bounds gW3).1 rfl⟩,
    ⟨by decide, (navigation_bounds gW3).2.1 (by decide)⟩,
    ((navigation_bounds gW3).2.2 (by decide) (by decide)).1,
    ((navigation_bounds gW3).2.2 (by decide) (by decide)).2⟩

/-- Witness for C5: concrete two-issue collection with insights present. -/
theorem rebuild_sortedIDs_ordered_witness :
    gW5.insights = some insightsW ∧ insightsW.stats = some statsW ∧
    (List.Sorted (cpOrder statsW) (rebuildGraph gW5).sortedIDs ∧
      ∀ l, l.Perm (gW5.issues.map Issue.id) → List.Sorted (cpOrder statsW) l →
        l = (rebuildGraph gW5).sortedIDs) :=
  ⟨rfl, rfl, (rebuild_sortedIDs_ordered gW5).2.1 insightsW statsW rfl rfl⟩

/-- C4: when `SetIssues` replaces the collection with one whose size is at
most the previous selection index, the new index is inside `[0, count-1]`
when the new count is positive, and `SelectedIssue` reports no selection when
the new count is 0. -/
theorem setIssues_shrink_clamp (g : GraphModel) (issues : List Issue)
    (insights : Option Insights) (h : (issues.length : Int) ≤ g.selectedIdx) :
    (0 < issues.length →
      0 ≤ (g.SetIssues issues insights).selectedIdx ∧
      (g.SetIssues issues insights).selectedIdx ≤
        (((g.SetIssues issues insights).sortedIDs.length : Int) - 1)) ∧
    (issues.length = 0 → (g.SetIssues issues insights).SelectedIssue = none) := by
  have hlen : (g.SetIssues issues insights).sortedIDs.length = issues.length :=
    rebuild_sortedIDs_length _
  have hidx : (g.SetIssues issues insights).selectedIdx = 0 := by
    unfold GraphModel.SetIssues
    rw [rebuild_selectedIdx_reduce]
    unfold GraphModel.SetIssues at hlen
    rw [if_pos (by rw [hlen]; simpa using h)]
  constructor
  · intro hpos
    rw [hidx, hlen]
    omega
  · intro hzero
    unfold GraphModel.SelectedIssue
    rw [if_pos (by rw [hlen]; exact hzero)]

/-- Witness for C4: shrinking to the empty collection from index 5. -/
theorem setIssues_shrink_clamp_witness :
    ((([] : List Issue).length : Int) ≤ gW4.selectedIdx) ∧
    (gW4.SetIssues [] none).SelectedIssue = none :=
  ⟨by decide, (setIssues_shrink_clamp gW4 [] none (by decide)).2 rfl⟩

/-- C10: whenever `rebuildGraph` runs through `SetIssues` (or construction)
and the previous selection index is at least the new collection size, the
index is reset to 0 — not clamped to the last valid index; any previous index
strictly below the new size, a negative one included, is left unchanged. -/
theorem rebuild_reset_not_clamp (g : GraphModel) (issues : List Issue)
    (insights : Option Insights) :
    ((issues.length : Int) ≤ g.selectedIdx →
      (g.SetIssues issues insights).selectedIdx = 0) ∧
    (g.selectedIdx < (issues.length : Int) →
      (g.SetIssues issues insights).selectedIdx = g.selectedIdx) := by
  have hlen : (g.SetIssues issues insights).sortedIDs.length = issues.length :=
    rebuild_sortedIDs_length _
  constructor
  · intro h
    unfold GraphModel.SetIssues
    rw [rebuild_selectedIdx_reduce]
    unfold GraphModel.SetIssues at hlen
    rw [if_pos (by rw [hlen]; simpa using h)]
  · intro h
    unfold GraphModel.SetIssues
    rw [rebuild_selectedIdx_reduce]
    unfold GraphModel.SetIssues at hlen
    rw [if_neg (by rw [hlen]; simp only; omega)]

/-- Witness for C10: a stale negative index survives a rebuild to a larger
collection unchanged, and an out-of-range index is reset to 0. -/
theorem rebuild_reset_not_clamp_witness :
    (gW10.selectedIdx < (([issueW [97]] : List Issue).length : Int) ∧
      (gW10.SetIssues [issueW [97]] none).selectedIdx = gW10.selectedIdx) ∧
    ((([] : List Issue).length : Int) ≤ gW4.selectedIdx ∧
      (gW4.SetIssues [] none).selectedIdx = 0) :=
  ⟨⟨by decide, (rebuild_reset_not_clamp gW10 [issueW [97]] none).2 (by decide)⟩,
    ⟨by decide, (rebuild_reset_not_clamp gW4 [] none).1 (by decide)⟩⟩

/-! ## Rendering helpers (source lines 400-469 and number formatting) -/

/-- Model of `fmt.Sprintf("%d", n)` for a non-negative count. -/
def natToBytes (n : Nat) : GoStr := strBytes (toString n)

/-- Model of `fmt.Sprintf("%d", i)` for a Go int. -/
def intToBytes (i : Int) : GoStr := strBytes (toString i)

/-- Model of `fmt.Sprintf` fixed-point formatting of a score (Go `%.Nf`, here on the
rational score model): round half away from zero to `d` fraction digits.
The exact digits are irrelevant to the settled claims; determinism is all
that matters. -/
def formatFixed (q : ℚ) (d : Nat) : GoStr :=
  let scaled : Int := Int.floor (q * (10 : ℚ) ^ d + 1 / 2)
  let sign : GoStr := if scaled < 0 then strBytes "-" else []
  let a := scaled.natAbs
  if d = 0 then sign ++ natToBytes a
  else
    sign ++ natToBytes (a / 10 ^ d) ++ strBytes "." ++
      (let digits := natToBytes (a % 10 ^ d)
       List.replicate (d - digits.length) 0x30 ++ digits)

/-- Model of `getStatusIcon` (source lines 409-422). -/
def getStatusIcon : Status → GoStr
  | Status.opened => strBytes "🔵"
  | Status.inProgress => strBytes "🟡"
  | Status.blocked => strBytes "🔴"
  | Status.closed => strBytes "✅"
  | Status.otherStatus => strBytes "⚪"

/-- Model of `getStatusColor` (source lines 424-437). -/
def getStatusColor (status : Status) (t : Theme) : Color :=
  match status with
  | Status.opened => t.Open
  | Status.inProgress => t.InProgress
  | Status.blocked => t.Blocked
  | Status.closed => t.Closed
  | Status.otherStatus => t.Secondary

/-- Model of `getPriorityIcon` (source lines 439-452). -/
def getPriorityIcon (priority : Int) : GoStr :=
  if priority = 1 then strBytes "🔥"
  else if priority = 2 then strBytes "⚡"
  else if priority = 3 then strBytes "📌"
  else if priority = 4 then strBytes "📋"
  else strBytes "  "

/-- Model of `getTypeIcon` (source lines 454-469). -/
def getTypeIcon : IssueType → GoStr
  | IssueType.bug => strBytes "🐛"
  | IssueType.feature => strBytes "✨"
  | IssueType.task => strBytes "📝"
  | IssueType.epic => strBytes "🎯"
  | IssueType.chore => strBytes "🔧"
  | IssueType.otherType => strBytes "📄"

/-- Modelled from the spec: `truncateRunesHelper` lives in a pkg/ui helper
file that is not under src/.  Per the spec it clips text to the given width
with an ellipsis, rune-safe: strings of at most `maxLen` runes pass through;
longer ones are cut to `maxLen-1` runes plus the given ellipsis. -/
def truncateRunesHelper (s : GoStr) (maxLen : Int) (ell : GoStr) : GoStr :=
  let runes := utf8Decode s
  if (runes.length : Int) ≤ maxLen then s
  else utf8Encode (runes.take (maxLen - 1).toNat) ++ ell

/-- Model of `renderSectionHeader` (source lines 400-405). -/
def renderSectionHeader (title : GoStr) (t : Theme) : Rend :=
  Rend.styled (({} : Style).Bold true |>.Foreground t.Feature) title

/-- Model of `renderRelatedNode` (source lines 371-398). -/
def GraphModel.renderRelatedNode (g : GraphModel) (id : GoStr) (width : Int)
    (t : Theme) (pfx : GoStr) : Rend :=
  match g.issueMap id with
  | none =>
      Rend.styled (({} : Style).Foreground t.Secondary |>.Italic true)
        (pfx ++ id ++ strBytes " (not in current filter)")
  | some issue =>
      let statusIcon := getStatusIcon issue.status
      let statusColor := getStatusColor issue.status t
      let maxIDLen : Int := 20
      let displayID := smartTruncateID id maxIDLen
      let remainingWidth : Int := width - pfx.length - 3 - displayID.length - 3
      let titleSnippet : GoStr :=
        if 10 < remainingWidth ∧ issue.title ≠ [] then
          strBytes " " ++ truncateRunesHelper issue.title remainingWidth (strBytes "…")
        else []
      Rend.styled (({} : Style).Foreground statusColor)
        (pfx ++ statusIcon ++ strBytes " " ++ displayID ++ titleSnippet)

/-- Model of `renderNeighborhood` (source lines 275-369): the ego-centric view of the
selected node.  Reads only immutable parts of the state. -/
def GraphModel.renderNeighborhood (g : GraphModel) (id : GoStr) (issue : Issue)
    (width : Int) (_height : Int) (t : Theme) : Rend :=
  let headerStyle := ({} : Style).Bold true |>.Foreground t.Primary
  let header := Rend.styled headerStyle
    (getStatusIcon issue.status ++ strBytes " " ++ getPriorityIcon issue.priority ++
      strBytes " " ++ getTypeIcon issue.issueType ++ strBytes " " ++ id)
  let titleSection : List Rend :=
    if issue.title ≠ [] then
      [Rend.styled (({} : Style).Foreground t.Base.GetForeground |>.Width (width - 2))
        (strBytes "   " ++ truncateRunesHelper issue.title (width - 4) (strBytes "…"))]
    else []
  let blockerCount := (g.blockers id).length
  let dependentCount := (g.dependents id).length
  let stats := Rend.styled (({} : Style).Foreground t.Secondary)
    (strBytes "⬆️ Blocked by: " ++ natToBytes blockerCount ++
      strBytes "    ⬇️ Blocks: " ++ natToBytes dependentCount)
  let moreStyle := ({} : Style).Foreground t.Secondary |>.Italic true
  let blockerSection : List Rend :=
    if 0 < blockerCount then
      [renderSectionHeader (strBytes "⬆️ BLOCKED BY (must complete first)") t] ++
        ((g.blockers id).take 8).map
          (fun bid => g.renderRelatedNode bid width t (strBytes "   ")) ++
        (if 8 < blockerCount then
          [Rend.styled moreStyle
            (strBytes "   ... and " ++ natToBytes (blockerCount - 8) ++ strBytes " more")]
         else []) ++
        [Rend.text []]
    else []
  let dependentSection : List Rend :=
    if 0 < dependentCount then
      [renderSectionHeader (strBytes "⬇️ BLOCKS (waiting on this)") t] ++
        ((g.dependents id).take 8).map
          (fun did => g.renderRelatedNode did width t (strBytes "   ")) ++
        (if 8 < dependentCount then
          [Rend.styled moreStyle
            (strBytes "   ... and " ++ natToBytes (dependentCount - 8) ++ strBytes " more")]
         else []) ++
        [Rend.text []]
    else []
  let metricsStyle := ({} : Style).Foreground t.Secondary
  let insightsSection : List Rend :=
    match g.insights with
    | some ⟨some st⟩ =>
        [renderSectionHeader (strBytes "📈 IMPACT METRICS") t] ++
          (match st.pageRank id with
           | some score =>
               if 0 < score then
                 [Rend.styled metricsStyle (strBytes "   PageRank: " ++ formatFixed score 4)]
               else []
           | none => []) ++
          (match st.criticalPathScore id with
           | some score =>
               if 0 < score then
                 [Rend.styled metricsStyle
                   (strBytes "   Critical Path: " ++ formatFixed score 2)]
               else []
           | none => []) ++
          (match st.betweenness id with
           | some score =>
               if 0 < score then
                 [Rend.styled metricsStyle
                   (strBytes "   Betweenness: " ++ formatFixed score 4)]
               else []
           | none => [])
    | some ⟨none⟩ => []
    | none => []
  let navHint := Rend.styled (({} : Style).Foreground t.Secondary |>.Italic true)
    (strBytes "j/k: navigate • enter: view details • g: back to list")
  Rend.joinLines ([header] ++ titleSection ++ [Rend.text [], stats, Rend.text []] ++
    blockerSection ++ dependentSection ++ insightsSection ++ [Rend.text [], navHint])

/-- The scroll-offset adjustment of `renderNodeList` (source lines 212-218). -/
def adjustedStart (scrollOffset selectedIdx visibleItems : Int) : Int :=
  if selectedIdx < scrollOffset then selectedIdx
  else if scrollOffset + visibleItems ≤ selectedIdx then selectedIdx - visibleItems + 1
  else scrollOffset

theorem adjustedStart_idem (scr sel v : Int) (hv : 1 ≤ v) :
    adjustedStart (adjustedStart scr sel v) sel v = adjustedStart scr sel v := by
  unfold adjustedStart
  split_ifs <;> omega

/-- The node-list pane text (source lines 195-271), as a function of the
already-adjusted start index and of the state fields it reads. -/
def renderNodeListBody (sortedIDs : List GoStr) (issueMap : GoStr → Option Issue)
    (selectedIdx startIdx width height : Int) (t : Theme) : Rend :=
  let headerLine := Rend.styled
    (({} : Style).Bold true |>.Foreground t.Primary |>.Width width)
    (strBytes "📊 Nodes (" ++ natToBytes sortedIDs.length ++ strBytes ")")
  let rule := Rend.text ((List.replicate width.toNat (strBytes "─")).flatten)
  let visibleItems := if height - 4 < 1 then 1 else height - 4
  let endIdx :=
    if (sortedIDs.length : Int) < startIdx + visibleItems then (sortedIDs.length : Int)
    else startIdx + visibleItems
  let rows : List Rend :=
    ((List.range (endIdx - startIdx).toNat).map (fun k => startIdx + (k : Int))).filterMap
      (fun i =>
        let id := idxGoStr sortedIDs i
        match issueMap id with
        | none => none
        | some issue =>
            let line := getStatusIcon issue.status ++ strBytes " " ++
              smartTruncateID id (width - 4)
            let style :=
              if i = selectedIdx then
                ({} : Style).Bold true |>.Foreground t.Primary
                  |>.Background t.Highlight |>.Width width
              else
                ({} : Style).Foreground (getStatusColor issue.status t) |>.Width width
            some (Rend.styled style line))
  let scrollInd : List Rend :=
    if visibleItems < (sortedIDs.length : Int) then
      [Rend.styled
        (({} : Style).Foreground t.Secondary |>.Italic true |>.Width width
          |>.Align1 Pos.center)
        (strBytes "(" ++ intToBytes (startIdx + 1) ++ strBytes "-" ++ intToBytes endIdx ++
          strBytes " of " ++ natToBytes sortedIDs.length ++ strBytes ")")]
    else []
  Rend.joinLines ([headerLine, rule] ++ rows ++ scrollInd)

/-- Model of `renderNodeList` (source lines 195-272): renders the pane and stores the
adjusted start index into `g.scrollOffset` (source line 218). -/
def GraphModel.renderNodeList (g : GraphModel) (width height : Int) (t : Theme) :
    Rend × GraphModel :=
  let visibleItems := if height - 4 < 1 then 1 else height - 4
  let startIdx := adjustedStart g.scrollOffset g.selectedIdx visibleItems
  (renderNodeListBody g.sortedIDs g.issueMap g.selectedIdx startIdx width height t,
    { g with scrollOffset := startIdx })

/-- Model of `View` (source lines 148-192).  The Go method mutates its receiver
(width, height, and the scroll offset through `renderNodeList`), so the model
returns the new state alongside the text. -/
def GraphModel.View (g0 : GraphModel) (width height : Int) : Rend × GraphModel :=
  let g := { g0 with width := width, height := height }
  let t := g.theme
  if g.sortedIDs.length = 0 then
    (Rend.styled
      (({} : Style).Width width |>.Height height
        |>.Align2 Pos.center Pos.center |>.Foreground t.Secondary)
      (strBytes "No issues to display"), g)
  else
    let selectedID := idxGoStr g.sortedIDs g.selectedIdx
    match g.issueMap selectedID with
    | none => (Rend.text (strBytes "Error: selected issue not found"), g)
    | some selectedIssue =>
        let listWidth : Int := if width < 100 then 24 else 32
        if width < 80 then
          (g.renderNeighborhood selectedID selectedIssue width height t, g)
        else
          let detailWidth := width - listWidth - 3
          let p := g.renderNodeList listWidth (height - 2) t
          let neighborView :=
            p.2.renderNeighborhood selectedID selectedIssue detailWidth (height - 2) t
          let separator := Rend.styled (({} : Style).Foreground t.Secondary)
            ((List.replicate (height - 2).toNat (strBytes "│\n")).flatten)
          (Rend.joinH Pos.top [p.1, separator, neighborView], p.2)

/-- C9: for an empty issue collection, `View` returns the literal placeholder
"No issues to display" centered in the given dimensions (width/height set and
both alignments centered). -/
theorem view_empty_placeholder (ins : Option Insights) (th : Theme) (w h : Int) :
    ((NewGraphModel [] ins th).View w h).1 =
      Rend.styled
        (({} : Style).Width w |>.Height h
          |>.Align2 Pos.center Pos.center |>.Foreground th.Secondary)
        (strBytes "No issues to display") := by
  have hids : (NewGraphModel [] ins th).sortedIDs = [] := by
    rw [show (NewGraphModel [] ins th).sortedIDs = sortIDs ins [] from rfl]
    rcases ins with _ | ⟨_ | st⟩ <;> rfl
  unfold GraphModel.View
  simp [hids]
  rfl

/-- C6: rendering is a pure function of the state and the viewport — calling
`View` a second time with the same width and height on the state returned by
the first call returns the very same text and state, despite the internal
updates of `scrollOffset`, `width` and `height`. -/
theorem view_idempotent (g : GraphModel) (w h : Int) :
    ((g.View w h).2).View w h = g.View w h := by
  obtain ⟨iss, imap, ins, sel, scr, wd, ht, th, bl, dp, ids⟩ := g
  unfold GraphModel.View GraphModel.renderNodeList
  by_cases h0 : ids.length = 0
  · simp [h0]
  · have h0' : ¬ ids = [] := fun hnil => h0 (by simp [hnil])
    rcases himap : imap (idxGoStr ids sel) with _ | issue
    · simp [h0, h0', himap]
    · by_cases h80 : w < 80
      · simp [h0, h0', himap, h80]
      · simp only [h0, h0', himap, h80, if_false]
        rw [adjustedStart_idem scr sel _ (by split_ifs <;> omega)]

/-! ## The row renderer (delegate.go) -/

/-- Width tiers (delegate.go lines 14-21): `TierCompact < TierNormal <
TierWide < TierUltraWide` as consecutive integer constants. -/
inductive Tier
  | compact
  | normal
  | wide
  | ultraWide
deriving DecidableEq

/-- The integer value of a tier constant (`iota` in the source). -/
def Tier.toNat : Tier → Nat
  | Tier.compact => 0
  | Tier.normal => 1
  | Tier.wide => 2
  | Tier.ultraWide => 3

/-- Go `d.Tier >= t` on tier constants. -/
def Tier.geB (a b : Tier) : Bool := b.toNat ≤ a.toNat

/-- Modelled from the spec: the list item consumed by the delegate (a pkg/ui
file not under src/) — an issue plus its impact score (float, modelled as a
rational). -/
structure IssueItem where
  issue : Issue
  impact : ℚ

/-- Modelled from the spec: helpers from the visuals/theme files of pkg/ui
(not under src/): relative-time formatting, the sparkline and heatmap
gradient, and the priority-icon table used by the delegate.  Their outputs
are opaque to the claims settled here, so they are threaded as an explicit
environment. -/
structure VisualsEnv where
  FormatTimeRel : Nat → GoStr
  RenderSparkline : ℚ → Int → GoStr
  GetHeatmapColor : ℚ → Color
  GetPriorityIcon : Int → GoStr

/-- Modelled from the spec: the underlying strings of `model.Status`
(`string(i.Issue.Status)`), named after the spec's enum. -/
def statusString : Status → GoStr
  | Status.opened => strBytes "open"
  | Status.inProgress => strBytes "in-progress"
  | Status.blocked => strBytes "blocked"
  | Status.closed => strBytes "closed"
  | Status.otherStatus => strBytes "other"

/-- Modelled from the spec: the underlying strings of `model.IssueType`. -/
def issueTypeString : IssueType → GoStr
  | IssueType.bug => strBytes "bug"
  | IssueType.feature => strBytes "feature"
  | IssueType.task => strBytes "task"
  | IssueType.epic => strBytes "epic"
  | IssueType.chore => strBytes "chore"
  | IssueType.otherType => strBytes "other"

/-- Model of `strings.ToUpper` on the ASCII status strings. -/
def toUpperBytes (s : GoStr) : GoStr :=
  s.map (fun b => if 0x61 ≤ b ∧ b ≤ 0x7A then b - 0x20 else b)

/-- The columns a row can render; `colUpdated` stands for the joined
updated-time and impact cell (delegate.go line 125). -/
inductive Column
  | colID
  | colType
  | colPriority
  | colStatus
  | colTitle
  | colAssignee
  | colAge
  | colComments
  | colUpdated
deriving DecidableEq

/-- Assignee cell content (delegate.go lines 80-88): `"@" + name` when an
assignee is set, blank otherwise; blank below `TierNormal` (the variable is
initialized to the empty string and only assigned under the tier gate). -/
def assigneeContent (tier : Tier) (i : IssueItem) : GoStr :=
  if Tier.geB tier Tier.normal then
    (if i.issue.assignee ≠ [] then strBytes "@" ++ i.issue.assignee else [])
  else []

/-- Age cell content (delegate.go lines 91-93). -/
def ageContent (env : VisualsEnv) (tier : Tier) (i : IssueItem) : GoStr :=
  if Tier.geB tier Tier.wide then env.FormatTimeRel i.issue.createdAt else []

/-- Comment-count cell content (delegate.go lines 95-101). -/
def commentsContent (tier : Tier) (i : IssueItem) : GoStr :=
  if Tier.geB tier Tier.wide then
    (if 0 < i.issue.commentCount then strBytes "💬" ++ natToBytes i.issue.commentCount
     else [])
  else []

/-- Impact normalized to [0,1] (delegate.go lines 110-111). -/
def normImpact (i : IssueItem) : ℚ :=
  if 1 < i.impact / 10 then 1 else i.impact / 10

/-- Underlying text of the impact part of the updated cell (delegate.go
lines 113-123): the sparkline, followed by the raw impact number when it is
positive. -/
def impactContent (env : VisualsEnv) (i : IssueItem) : GoStr :=
  let impactStr := env.RenderSparkline (normImpact i) 4
  if 0 < i.impact then impactStr ++ strBytes " " ++ formatFixed i.impact 0
  else impactStr

/-- Underlying text of the joined updated-time and impact cell (delegate.go
lines 106-127); blank below `TierUltraWide`. -/
def updatedContent (env : VisualsEnv) (tier : Tier) (i : IssueItem) : GoStr :=
  if Tier.geB tier Tier.ultraWide then
    env.FormatTimeRel i.issue.updatedAt ++ impactContent env i
  else []

/-- Title width computation (delegate.go lines 130-137): running `gaps` and
`extraWidth` sums over the tier gates, fixed column widths 8+2+3+12, outer
margin 4, floored at 10. -/
def titleAvailableWidth (tier : Tier) (w : Int) : Int :=
  let gaps : Int := 4 + (if Tier.geB tier Tier.normal then 1 else 0) +
    (if Tier.geB tier Tier.wide then 2 else 0) +
    (if Tier.geB tier Tier.ultraWide then 1 else 0)
  let extraWidth : Int := (if Tier.geB tier Tier.normal then 12 else 0) +
    (if Tier.geB tier Tier.wide then 12 else 0) +
    (if Tier.geB tier Tier.ultraWide then 18 else 0)
  let fixedWidth := 8 + 2 + 3 + 12 + extraWidth + gaps
  let availableWidth := w - fixedWidth - 4
  if availableWidth < 10 then 10 else availableWidth

/-- The delegate (delegate.go lines 23-26). -/
structure IssueDelegate where
  tier : Tier
  theme : Theme

/-- Model of `IssueDelegate.Render` (delegate.go lines 40-153) for a list item that
matched `IssueItem` (a non-matching item writes nothing, lines 41-44), as a
function of the list width and of whether `index == m.Index()`. -/
def IssueDelegate.RenderRow (d : IssueDelegate) (env : VisualsEnv) (mWidth : Int)
    (isSelected : Bool) (i : IssueItem) : Rend :=
  let t := d.theme
  let baseStyle :=
    if isSelected then t.Selected
    else t.Base.PaddingLeft 1 |>.PaddingRight 1 |>.BorderLeftOnly
  let idCell := Rend.styled
    (({} : Style).Width 8 |>.Foreground t.Secondary |>.Bold true) i.issue.id
  let tIcon := t.GetTypeIcon (issueTypeString i.issue.issueType)
  let typeCell := Rend.styled
    (({} : Style).Width 2 |>.Align1 Pos.center |>.Foreground tIcon.2) tIcon.1
  let prioCell := Rend.styled (({} : Style).Width 3 |>.Align1 Pos.center)
    (env.GetPriorityIcon i.issue.priority)
  let statusCell := Rend.styled
    (({} : Style).Width 12 |>.Align1 Pos.center |>.Bold true
      |>.Foreground (t.GetStatusColor (statusString i.issue.status)))
    (toUpperBytes (statusString i.issue.status))
  let assigneeCell := Rend.styled
    (({} : Style).Width 12 |>.Foreground t.Secondary |>.Align1 Pos.posRight)
    (assigneeContent d.tier i)
  let ageCell := Rend.styled
    (({} : Style).Width 8 |>.Foreground t.Secondary |>.Align1 Pos.posRight)
    (ageContent env d.tier i)
  let commentsCell := Rend.styled
    (({} : Style).Width 4 |>.Foreground t.Subtext |>.Align1 Pos.posRight)
    (commentsContent d.tier i)
  let impactStyle := ({} : Style).Foreground (env.GetHeatmapColor (normImpact i))
  let impactRender :=
    if 0 < i.impact then
      Rend.cat [Rend.styled impactStyle (env.RenderSparkline (normImpact i) 4),
        Rend.text (strBytes " " ++ formatFixed i.impact 0)]
    else Rend.styled impactStyle (env.RenderSparkline (normImpact i) 4)
  let updatedCell := Rend.joinH Pos.posLeft
    [Rend.styled
      (({} : Style).Width 10 |>.Foreground t.Secondary |>.Align1 Pos.posRight)
      (env.FormatTimeRel i.issue.updatedAt),
     Rend.wrap (({} : Style).Width 8 |>.Align1 Pos.posRight) impactRender]
  let availableWidth := titleAvailableWidth d.tier mWidth
  let titleStyle0 := ({} : Style).Foreground t.Base.GetForeground
    |>.Width availableWidth |>.MaxWidth availableWidth
  let titleStyle :=
    if isSelected then titleStyle0.Foreground t.Primary |>.Bold true else titleStyle0
  let titleCell := Rend.styled titleStyle i.issue.title
  let parts := [idCell, typeCell, prioCell, statusCell, titleCell] ++
    (if Tier.geB d.tier Tier.wide then [commentsCell, ageCell] else []) ++
    (if Tier.geB d.tier Tier.normal then [assigneeCell] else []) ++
    (if Tier.geB d.tier Tier.ultraWide then [updatedCell] else [])
  Rend.wrap baseStyle (Rend.joinH Pos.posLeft parts)

/-- The columns of a rendered row, in the compose order of
`IssueDelegate.RenderRow` (delegate.go lines 146-149), each labelled and
paired with the pre-style text content of its cell. -/
def rowParts (env : VisualsEnv) (th : Theme) (tier : Tier) (i : IssueItem) :
    List (Column × GoStr) :=
  [(Column.colID, i.issue.id),
   (Column.colType, (th.GetTypeIcon (issueTypeString i.issue.issueType)).1),
   (Column.colPriority, env.GetPriorityIcon i.issue.priority),
   (Column.colStatus, toUpperBytes (statusString i.issue.status)),
   (Column.colTitle, i.issue.title)] ++
  (if Tier.geB tier Tier.wide then
    [(Column.colComments, commentsContent tier i), (Column.colAge, ageContent env tier i)]
   else []) ++
  (if Tier.geB tier Tier.normal then [(Column.colAssignee, assigneeContent tier i)] else []) ++
  (if Tier.geB tier Tier.ultraWide then [(Column.colUpdated, updatedContent env tier i)] else [])

/-- The set of columns rendered with non-empty content at a tier. -/
def nonEmptyColumns (env : VisualsEnv) (th : Theme) (tier : Tier) (i : IssueItem) :
    List Column :=
  (rowParts env th tier i).filterMap (fun p => if p.2 ≠ [] then some p.1 else none)

/-- C7: for a fixed issue, every non-empty rendered column at a tier is also a
non-empty rendered column at every higher (in particular the next) tier:
the sets are nested along Compact < Normal < Wide < UltraWide. -/
theorem tier_columns_monotone (env : VisualsEnv) (th : Theme) (t1 t2 : Tier)
    (i : IssueItem) (hle : t1.toNat ≤ t2.toNat) :
    ∀ c ∈ nonEmptyColumns env th t1 i, c ∈ nonEmptyColumns env th t2 i := by
  intro c hc
  rcases List.mem_filterMap.mp hc with ⟨p, hp, hf⟩
  refine List.mem_filterMap.mpr ⟨p, ?_, hf⟩
  revert hp
  cases t1 <;> cases t2 <;>
    first
      | exact absurd hle (by decide)
      | (simp only [rowParts, ageContent, commentsContent, assigneeContent,
          updatedContent, Tier.geB, Tier.toNat]
         intro hp
         simp only [List.mem_append, List.mem_cons, List.not_mem_nil] at hp ⊢
         tauto)

/-- A concrete visuals environment for witness instantiations. -/
def envW : VisualsEnv :=
  ⟨fun _ => strBytes "1d", fun _ _ => strBytes "....", fun _ => 0,
    fun _ => strBytes "🔥"⟩

/-- A concrete item for witness instantiations. -/
def itemW : IssueItem := ⟨issueW [97], 0⟩

/-- Witness for C7: the ID column, non-empty at Compact, stays non-empty at
Normal. -/
theorem tier_columns_monotone_witness :
    (Tier.compact.toNat ≤ Tier.normal.toNat) ∧
    (Column.colID ∈ nonEmptyColumns envW themeW Tier.compact itemW) ∧
    Column.colID ∈ nonEmptyColumns envW themeW Tier.normal itemW :=
  ⟨by decide, by decide,
    tier_columns_monotone envW themeW Tier.compact Tier.normal itemW (by decide)
      Column.colID (by decide)⟩

/-- C8: the width allotted to the title is the viewport width minus
`8+2+3+12+extraWidth+gaps` minus 4, floored at 10, where `gaps` is 4, plus 1
from Normal on, plus 2 from Wide on, plus 1 at UltraWide, and `extraWidth` is
12 from Normal on, plus 12 from Wide on, plus 18 more at UltraWide — spelled
out per tier. -/
theorem title_width_formula (w : Int) :
    titleAvailableWidth Tier.compact w = max (w - (8 + 2 + 3 + 12 + 0 + 4) - 4) 10 ∧
    titleAvailableWidth Tier.normal w =
      max (w - (8 + 2 + 3 + 12 + 12 + (4 + 1)) - 4) 10 ∧
    titleAvailableWidth Tier.wide w =
      max (w - (8 + 2 + 3 + 12 + (12 + 12) + (4 + 1 + 2)) - 4) 10 ∧
    titleAvailableWidth Tier.ultraWide w =
      max (w - (8 + 2 + 3 + 12 + (12 + 12 + 18) + (4 + 1 + 2 + 1)) - 4) 10 := by
  refine ⟨?_, ?_, ?_, ?_⟩ <;>
    (simp only [titleAvailableWidth, Tier.geB, Tier.toNat]
     norm_num
     omega)

end BeadsViewer
